import Mathlib

/-!
Shallow embedding of `flipkart_price_alert.py`: the alert data model, the
product-page fetcher, the add/remove command handlers, and the scan-cycle
engine `check_all_prices`, together with theorems checking the
natural-language specification against them.

Machine integers of the source (Python ints) are modelled as `Int`
(arbitrary precision, like Python); fallible operations return `Option`.
The fetcher and the Telegram send call are modelled as explicit oracles
passed to the engine, and the engine returns the ordered list of observable
events (send attempts and the store save) so that ordering claims can be
stated.
-/

namespace FlipkartBot

/-- An alert record, one entry of a user's list in `product_alerts.json`
(fields built in `add_product`, lines 140-147 of the source). -/
structure Alert where
  id : String
  name : String
  url : String
  current_price : Int
  target_price : Int
  added_on : Nat
deriving Repr, DecidableEq

/-- The dictionary returned by `get_product_details` on success
(lines 81-86 of the source). -/
structure ProductDetails where
  name : String
  price : Int
  url : String
  image : Option String
deriving Repr, DecidableEq

/-- One entry of `user_updates` in `check_all_prices`
(lines 240-246 of the source). -/
structure UpdateInfo where
  name : String
  old_price : Int
  current_price : Int
  target_price : Int
  url : String
deriving Repr, DecidableEq

/-- The persisted collection: a mapping user id to ordered alert list,
as a key-ordered association list (Python dicts preserve insertion order
and have unique keys). -/
abbrev Store := List (String × List Alert)

/-- `user_id in products` followed by `products[user_id]`. -/
def lookupUser (store : Store) (uid : String) : Option (List Alert) :=
  (List.find? (fun p => p.1 == uid) store).map Prod.snd

/-- In-place replacement of one user's list (Python mutates the dict
entry's list object). -/
def setUser (store : Store) (uid : String) (alerts : List Alert) : Store :=
  List.map (fun p => if p.1 == uid then (p.1, alerts) else p) store

/-- The fetcher as an oracle: `get_product_details` on a url either
returns a details dictionary or `None` (network error, missing markup). -/
def Fetcher := String → Option ProductDetails

/-- Delivery oracle: whether `context.bot.send_message` to this chat id
succeeds or raises. -/
def SendOracle := String → Bool

/-- Observable effect of one scan cycle, in program order: a send attempt
(line 263 of the source; `ok` records whether delivery succeeded) or the
single `save_products` call (line 269). -/
inductive Event where
  | send (userId : String) (updates : List UpdateInfo) (ok : Bool)
  | save (store : Store)
deriving Repr, DecidableEq

def Event.isSend : Event → Bool
  | .send _ _ _ => true
  | .save _ => false

def Event.isSave : Event → Bool
  | .send _ _ _ => false
  | .save _ => true

/-- Forget the delivery outcome of a send event: what was attempted,
independent of whether the chat call raised. -/
def Event.attempt : Event → Event
  | .send u ups _ => .send u ups true
  | .save s => .save s

/-- Lines 226-246 of the source, the body of the per-alert loop in
`check_all_prices`: fetch, on failure leave the alert as is, on success
overwrite `current_price` and test the crossing rule
`current_price <= target_price and old_price > target_price`. -/
def checkAlert (fetch : Fetcher) (alert : Alert) : Alert × Option UpdateInfo :=
  match fetch alert.url with
  | none => (alert, none)
  | some pd =>
    let current_price := pd.price
    let old_price := alert.current_price
    let alert' := { alert with current_price := current_price }
    if current_price ≤ alert.target_price ∧ old_price > alert.target_price then
      (alert', some { name := alert.name, old_price := old_price,
                      current_price := current_price,
                      target_price := alert.target_price, url := alert.url })
    else
      (alert', none)

/-- The inner `for i, alert in enumerate(products[user_id])` loop:
returns the mutated alert list and `user_updates` in order. -/
def checkUserAlerts (fetch : Fetcher) : List Alert → List Alert × List UpdateInfo
  | [] => ([], [])
  | a :: rest =>
    ((checkAlert fetch a).1 :: (checkUserAlerts fetch rest).1,
     (checkAlert fetch a).2.toList ++ (checkUserAlerts fetch rest).2)

/-- The outer `for user_id in users_to_check` loop of `check_all_prices`:
threads the mutated store, the `updates_found` flag and the event list.
A send event is emitted as soon as a user's `user_updates` is nonempty
(lines 250-265); a delivery failure is caught and recorded. -/
def runUsers (fetch : Fetcher) (sendOk : SendOracle) :
    List String → Store → Store × Bool × List Event
  | [], store => (store, false, [])
  | u :: rest, store =>
    match lookupUser store u with
    | none => runUsers fetch sendOk rest store
    | some alerts =>
      let updates := (checkUserAlerts fetch alerts).2
      let store' := setUser store u (checkUserAlerts fetch alerts).1
      let r := runUsers fetch sendOk rest store'
      if updates.isEmpty then r
      else (r.1, true, Event.send u updates (sendOk u) :: r.2.2)

/-- Result of one scan cycle: the mutated in-memory collection, the
ordered event trace, and the `updates_found` flag returned at line 271. -/
structure CycleResult where
  products : Store
  events : List Event
  updates_found : Bool
deriving Repr, DecidableEq

/-- `users_to_check = specific_users if specific_users else products.keys()`
(line 217): an empty `specific_users` list is falsy in Python, so it falls
back to all keys. -/
def cycleUsers (products : Store) : Option (List String) → List String
  | some l => if l.isEmpty then products.map Prod.fst else l
  | none => products.map Prod.fst

/-- `check_all_prices(context, specific_users)`, lines 213-271 of the
source. `products` is what `load_products()` read from the data file.
The save event is appended after the whole user loop iff `updates_found`. -/
def check_all_prices (fetch : Fetcher) (sendOk : SendOracle)
    (products : Store) (specific_users : Option (List String)) : CycleResult :=
  let r := runUsers fetch sendOk (cycleUsers products specific_users) products
  { products := r.1,
    events := if r.2.1 then r.2.2 ++ [Event.save r.1] else r.2.2,
    updates_found := r.2.1 }

/-- Contents of the data file after the cycle: `save_products` (lines
40-42, a whole-file rewrite) runs iff `updates_found`. -/
def persistedAfter (file : Store) (r : CycleResult) : Store :=
  if r.updates_found then r.products else file

/-! ## The fetcher, `get_product_details` (lines 52-90) -/

/-- A product page as far as the scraper looks at it: the text of the
`span.B_NuCI` element, of the fallback `h1 span` element, of the price
`div`, and the `src` of the image element; each `none` when the selector
matches nothing. -/
structure Page where
  nameElemA : Option String
  nameElemB : Option String
  priceElem : Option String
  imgSrc : Option String
deriving Repr, DecidableEq

/-- Python `int` on a string of decimal digits. -/
def digitsToInt (ds : List Char) : Int :=
  Int.ofNat (ds.foldl (fun n c => n * 10 + (c.toNat - 48)) 0)

/-- `int(''.join(filter(str.isdigit, s)))`: strip non-digits, then parse;
`int('')` raises `ValueError` (caught by the surrounding `except`, turning
the call into a failure), modelled as `none`. -/
def parseCleanPrice (s : String) : Option Int :=
  let ds := s.toList.filter Char.isDigit
  if ds.isEmpty then none else some (digitsToInt ds)

/-- `get_product_details(url)`, lines 52-90. `page = none` models a
network failure (`requests.get` raising or a non-2xx status); with a page,
the name element falls back from `span.B_NuCI` to `h1 span`, and if either
the price element or the name element is missing the function returns
`None` (line 70-71). The price text is stripped of whitespace then of all
non-digit characters and parsed. -/
def get_product_details (url : String) (page : Option Page) :
    Option ProductDetails :=
  match page with
  | none => none
  | some pg =>
    let product_name := pg.nameElemA.orElse fun _ => pg.nameElemB
    match pg.priceElem, product_name with
    | some priceText, some nameText =>
      match parseCleanPrice priceText.trim with
      | none => none
      | some price =>
        some { name := nameText.trim, price := price, url := url,
               image := pg.imgSrc }
    | _, _ => none

/-! ## `extract_product_id` (lines 45-50) and `add_product` (103-158) -/

/-- The `[^&]+` part of the regex: the maximal run of characters other
than an ampersand. -/
def takeNonAmp : List Char → List Char
  | [] => []
  | c :: rest => if c == '&' then [] else c :: takeNonAmp rest

/-- One attempt of the pattern `pid=([^&]+)` anchored at the head of the
list: succeeds when the list starts with `pid=` followed by at least one
non-`&` character, returning the captured maximal non-`&` run. -/
def pidAt : List Char → Option (List Char)
  | 'p' :: 'i' :: 'd' :: '=' :: tail =>
    let g := takeNonAmp tail
    if g.isEmpty then none else some g
  | _ => none

/-- `re.search` for the pattern `pid=([^&]+)`: try the anchored match at
every position, left to right (on a failed `[^&]+` the regex engine
advances the start position by one and keeps scanning). -/
def findPid : List Char → Option (List Char)
  | [] => none
  | c :: rest =>
    match pidAt (c :: rest) with
    | some g => some g
    | none => findPid rest

/-- `extract_product_id(url)`, lines 45-50. -/
def extract_product_id (url : String) : Option String :=
  (findPid url.toList).map fun l => String.mk l

/-- `if user_id not in products: products[user_id] = []` (lines
135-136). -/
def ensureUser (products : Store) (user_id : String) : Store :=
  if (lookupUser products user_id).isSome then products
  else products ++ [(user_id, [])]

/-- The state-mutating core of `add_product` (lines 131-150), after the
argument validation and a successful fetch `pd`: initialize the user's
list if absent, derive the id (`extract_product_id(url) or
str(len(products[user_id]))`), append the alert, and save. Returns the
new persisted store. -/
def add_product (products : Store) (user_id : String) (url : String)
    (target_price : Int) (pd : ProductDetails) (now : Nat) : Store :=
  setUser (ensureUser products user_id) user_id
    (((lookupUser (ensureUser products user_id) user_id).getD []) ++
      [{ id := (extract_product_id url).getD
            (toString
              ((lookupUser (ensureUser products user_id) user_id).getD
                []).length),
         name := pd.name, url := url,
         current_price := pd.price, target_price := target_price,
         added_on := now }])

/-! ## `remove_product` (lines 178-205) -/

/-- Reply sent back to the user by `remove_product`. -/
inductive RemoveReply where
  | noArgs
  | noAlerts
  | removed (name : String)
  | notFound (aid : String)
deriving Repr, DecidableEq

/-- The `for i, alert in enumerate(...)` search-and-pop loop (lines
194-199): remove the first alert whose `str(id)` equals the argument,
returning the shortened list and the removed alert. -/
def removeFirstAlert : List Alert → String → Option (List Alert × Alert)
  | [], _ => none
  | a :: rest, aid =>
    if a.id == aid then some (rest, a)
    else
      match removeFirstAlert rest aid with
      | none => none
      | some (rest', r) => some (a :: rest', r)

/-- `remove_product`, lines 178-205. Returns the data file contents after
the command, whether `save_products` was called, and the reply. The file
is only rewritten when a matching alert was found. -/
def remove_product (file : Store) (user_id : String) (args : List String) :
    Store × Bool × RemoveReply :=
  match args with
  | [] => (file, false, .noArgs)
  | alert_id :: _ =>
    match lookupUser file user_id with
    | none => (file, false, .noAlerts)
    | some [] => (file, false, .noAlerts)
    | some alerts =>
      match removeFirstAlert alerts alert_id with
      | none => (file, false, .notFound alert_id)
      | some (alerts', removed) =>
        (setUser file user_id alerts', true, .removed removed.name)

/-! ## Concrete inputs used by witnesses and counterexamples -/

/-- A snapshot the fetcher returns for url `u1`. -/
def exPD : ProductDetails := { name := "N", price := 950, url := "u1", image := none }

/-- A fetcher that succeeds on `u1` and fails elsewhere. -/
def exFetch : Fetcher := fun u => if u == "u1" then some exPD else none

/-- An alert above target whose fetch at `u1` crosses it. -/
def exAlert : Alert :=
  { id := "X", name := "Old", url := "u1", current_price := 1200,
    target_price := 1000, added_on := 0 }

/-- An alert whose url the fetcher fails on. -/
def exAlertBad : Alert :=
  { id := "B", name := "Bad", url := "nope", current_price := 500,
    target_price := 400, added_on := 0 }

/-- A one-user store holding the crossing alert. -/
def exStore : Store := [("7", [exAlert])]

/-- A fetcher returning a changed price (1100) that stays above the
target of `exAlert`, so a cycle updates the price in memory but finds no
crossing. -/
def staleFetch : Fetcher :=
  fun u =>
    if u == "u1" then
      some { name := "N", price := 1100, url := "u1", image := none }
    else none

/-- The store obtained by adding the same product url twice for user `7`
through `add_product`. -/
def dupStore : Store :=
  add_product (add_product [] "7" "u?pid=Q" 10 exPD 0) "7" "u?pid=Q" 10 exPD 0

/-- A product page with both a name element and a price element. -/
def exPage : Page :=
  { nameElemA := some "N", nameElemB := none,
    priceElem := some "₹1,234", imgSrc := none }

/-- A product page whose name elements are both missing. -/
def badPage : Page :=
  { nameElemA := none, nameElemB := none,
    priceElem := some "₹1,234", imgSrc := none }

/-- The ordering property claimed of a cycle: every notification send
event occurs strictly after every save event of the trace (dispatch only
once the collection is persisted). -/
def persistBeforeNotify (r : CycleResult) : Prop :=
  ∀ i j : Fin r.events.length,
    (r.events.get i).isSend = true → (r.events.get j).isSave = true →
    (j : Nat) < (i : Nat)

/-- An alert list is stable for a fetcher when re-running the per-user
loop on it changes nothing and produces no notifications. -/
def stableList (fetch : Fetcher) (l : List Alert) : Prop :=
  checkUserAlerts fetch l = (l, [])

/-! ## Helper lemmas on the per-alert and per-user loops -/

theorem checkAlert_of_fail (fetch : Fetcher) (a : Alert)
    (h : fetch a.url = none) : checkAlert fetch a = (a, none) := by
  simp [checkAlert, h]

theorem checkAlert_of_success (fetch : Fetcher) (a : Alert)
    (pd : ProductDetails) (h : fetch a.url = some pd) :
    checkAlert fetch a =
      ({ a with current_price := pd.price },
       if pd.price ≤ a.target_price ∧ a.current_price > a.target_price then
         some { name := a.name, old_price := a.current_price,
                current_price := pd.price, target_price := a.target_price,
                url := a.url }
       else none) := by
  simp only [checkAlert, h]
  split <;> rfl

theorem checkUserAlerts_append (fetch : Fetcher) (l1 l2 : List Alert) :
    checkUserAlerts fetch (l1 ++ l2) =
      ((checkUserAlerts fetch l1).1 ++ (checkUserAlerts fetch l2).1,
       (checkUserAlerts fetch l1).2 ++ (checkUserAlerts fetch l2).2) := by
  induction l1 with
  | nil => simp [checkUserAlerts]
  | cons a rest ih => simp [checkUserAlerts, ih]

/-! ## C1, C4, C5: the per-alert step -/

/-- C1: for an alert whose fetch succeeds, a notification entry is
produced iff `newPrice ≤ targetPrice ∧ oldPrice > targetPrice`, with
`oldPrice` the alert's `current_price` before the fetch (an edge trigger:
already-below or exactly-at-target old prices do not fire). -/
theorem C1_crossing_rule (fetch : Fetcher) (a : Alert) (pd : ProductDetails)
    (h : fetch a.url = some pd) :
    (checkAlert fetch a).2 =
      (if pd.price ≤ a.target_price ∧ a.current_price > a.target_price then
        some { name := a.name, old_price := a.current_price,
               current_price := pd.price, target_price := a.target_price,
               url := a.url }
       else none) ∧
    ((checkAlert fetch a).2.isSome = true ↔
      pd.price ≤ a.target_price ∧ a.current_price > a.target_price) := by
  rw [checkAlert_of_success fetch a pd h]
  refine ⟨rfl, ?_⟩
  split <;> simp_all

/-- C1 at a concrete input: old=1200, new=950, target=1000 fires. -/
theorem C1_crossing_rule_witness :
    (checkAlert exFetch exAlert).2.isSome = true ↔
      exPD.price ≤ exAlert.target_price ∧
        exAlert.current_price > exAlert.target_price :=
  (C1_crossing_rule exFetch exAlert exPD rfl).2

/-- C4: a failed fetch leaves the alert record unchanged and produces no
notification, and the alerts before and after it in the same list are
still processed exactly as they would be on their own (per-alert failure
isolation inside a user's loop; users are processed independently by
`runUsers`, so the same holds across users). -/
theorem C4_failure_isolation (fetch : Fetcher) (a : Alert)
    (l1 l2 : List Alert) (h : fetch a.url = none) :
    checkAlert fetch a = (a, none) ∧
    checkUserAlerts fetch (l1 ++ a :: l2) =
      ((checkUserAlerts fetch l1).1 ++ a :: (checkUserAlerts fetch l2).1,
       (checkUserAlerts fetch l1).2 ++ (checkUserAlerts fetch l2).2) := by
  have h1 := checkAlert_of_fail fetch a h
  refine ⟨h1, ?_⟩
  rw [checkUserAlerts_append]
  simp [checkUserAlerts, h1]

/-- C4 at a concrete input: the fetch of `exAlertBad` fails and the
surrounding alerts of the same user are processed as usual. -/
theorem C4_failure_isolation_witness :
    checkUserAlerts exFetch ([exAlert] ++ exAlertBad :: [exAlert]) =
      ((checkUserAlerts exFetch [exAlert]).1 ++
         exAlertBad :: (checkUserAlerts exFetch [exAlert]).1,
       (checkUserAlerts exFetch [exAlert]).2 ++
         (checkUserAlerts exFetch [exAlert]).2) :=
  (C4_failure_isolation exFetch exAlertBad [exAlert] [exAlert] rfl).2

/-- C5 as stated is false: a successful fetch overwrites `current_price`
but the loop never writes the alert's `name` (the source updates only
`products[user_id][i]['current_price']`, line 236); at the concrete input
the fetched name is `N` while the stored name stays `Old`. -/
theorem C5_counterexample :
    ¬ ∀ (fetch : Fetcher) (a : Alert) (pd : ProductDetails),
        fetch a.url = some pd →
        (checkAlert fetch a).1.current_price = pd.price ∧
        (checkAlert fetch a).1.name = pd.name := by
  intro hcl
  have h := (hcl exFetch exAlert exPD rfl).2
  revert h
  decide

/-- C5 amended: a successful fetch overwrites `current_price` with the
snapshot price and leaves every other field, `name` included, unchanged. -/
theorem C5_price_overwritten_name_kept (fetch : Fetcher) (a : Alert)
    (pd : ProductDetails) (h : fetch a.url = some pd) :
    (checkAlert fetch a).1 = { a with current_price := pd.price } := by
  rw [checkAlert_of_success fetch a pd h]

/-- C5 amended, at a concrete input. -/
theorem C5_price_overwritten_name_kept_witness :
    (checkAlert exFetch exAlert).1 = { exAlert with current_price := exPD.price } :=
  C5_price_overwritten_name_kept exFetch exAlert exPD rfl

/-! ## Helper lemmas on the scan-cycle loop -/

theorem runUsers_cons_none (f : Fetcher) (o : SendOracle) (u : String)
    (rest : List String) (st : Store) (h : lookupUser st u = none) :
    runUsers f o (u :: rest) st = runUsers f o rest st := by
  simp [runUsers, h]

theorem runUsers_cons_some (f : Fetcher) (o : SendOracle) (u : String)
    (rest : List String) (st : Store) (alerts : List Alert)
    (h : lookupUser st u = some alerts) :
    runUsers f o (u :: rest) st =
      (if (checkUserAlerts f alerts).2.isEmpty then
        runUsers f o rest (setUser st u (checkUserAlerts f alerts).1)
       else
        ((runUsers f o rest (setUser st u (checkUserAlerts f alerts).1)).1,
         true,
         Event.send u (checkUserAlerts f alerts).2 (o u) ::
           (runUsers f o rest (setUser st u (checkUserAlerts f alerts).1)).2.2)) := by
  simp [runUsers, h]

theorem lookupUser_eq_none_iff (st : Store) (u : String) :
    lookupUser st u = none ↔ ∀ p ∈ st, p.1 ≠ u := by
  simp [lookupUser, List.find?_eq_none]

theorem lookupUser_mem (st : Store) (u : String) (alerts : List Alert)
    (h : lookupUser st u = some alerts) : ∃ p ∈ st, p.2 = alerts := by
  simp only [lookupUser, Option.map_eq_some'] at h
  obtain ⟨p, hfind, hsnd⟩ := h
  exact ⟨p, List.mem_of_find?_eq_some hfind, hsnd⟩

theorem mem_setUser (st : Store) (u : String) (l : List Alert)
    (p : String × List Alert) (hp : p ∈ setUser st u l) :
    p.2 = l ∨ (p ∈ st ∧ p.1 ≠ u) := by
  simp only [setUser, List.mem_map] at hp
  obtain ⟨q, hq, hval⟩ := hp
  by_cases h : q.1 == u
  · left; rw [← hval]; simp [h]
  · right
    have hne : q.1 ≠ u := by simpa using h
    rw [← hval, if_neg h]
    exact ⟨hq, hne⟩

theorem runUsers_events_send (f : Fetcher) (o : SendOracle) :
    ∀ (us : List String) (st : Store),
      ∀ e ∈ (runUsers f o us st).2.2, e.isSend = true := by
  intro us
  induction us with
  | nil => intro st e he; simp [runUsers] at he
  | cons u rest ih =>
    intro st e he
    cases hl : lookupUser st u with
    | none =>
      rw [runUsers_cons_none f o u rest st hl] at he
      exact ih st e he
    | some alerts =>
      rw [runUsers_cons_some f o u rest st alerts hl] at he
      by_cases hemp : (checkUserAlerts f alerts).2.isEmpty
      · rw [if_pos hemp] at he
        exact ih _ e he
      · rw [if_neg hemp] at he
        rcases List.mem_cons.mp he with he | he
        · subst he; rfl
        · exact ih _ e he

theorem runUsers_found_eq (f : Fetcher) (o : SendOracle) :
    ∀ (us : List String) (st : Store),
      (runUsers f o us st).2.1 = !(runUsers f o us st).2.2.isEmpty := by
  intro us
  induction us with
  | nil => intro st; rfl
  | cons u rest ih =>
    intro st
    cases hl : lookupUser st u with
    | none => rw [runUsers_cons_none f o u rest st hl]; exact ih st
    | some alerts =>
      rw [runUsers_cons_some f o u rest st alerts hl]
      by_cases hemp : (checkUserAlerts f alerts).2.isEmpty
      · rw [if_pos hemp]; exact ih _
      · rw [if_neg hemp]; rfl

theorem runUsers_oracle (f : Fetcher) (o1 o2 : SendOracle) :
    ∀ (us : List String) (st : Store),
      (runUsers f o1 us st).1 = (runUsers f o2 us st).1 ∧
      (runUsers f o1 us st).2.1 = (runUsers f o2 us st).2.1 ∧
      (runUsers f o1 us st).2.2.map Event.attempt =
        (runUsers f o2 us st).2.2.map Event.attempt := by
  intro us
  induction us with
  | nil => intro st; exact ⟨rfl, rfl, rfl⟩
  | cons u rest ih =>
    intro st
    cases hl : lookupUser st u with
    | none =>
      rw [runUsers_cons_none f o1 u rest st hl,
          runUsers_cons_none f o2 u rest st hl]
      exact ih st
    | some alerts =>
      rw [runUsers_cons_some f o1 u rest st alerts hl,
          runUsers_cons_some f o2 u rest st alerts hl]
      by_cases hemp : (checkUserAlerts f alerts).2.isEmpty
      · rw [if_pos hemp, if_pos hemp]; exact ih _
      · rw [if_neg hemp, if_neg hemp]
        obtain ⟨h1, _, h3⟩ := ih (setUser st u (checkUserAlerts f alerts).1)
        exact ⟨h1, rfl, by simp [Event.attempt, h3]⟩

theorem checkAlert_idem (f : Fetcher) (a : Alert) :
    checkAlert f (checkAlert f a).1 = ((checkAlert f a).1, none) := by
  cases hf : f a.url with
  | none =>
    rw [checkAlert_of_fail f a hf]
    exact checkAlert_of_fail f a hf
  | some pd =>
    have h1 : (checkAlert f a).1 = { a with current_price := pd.price } := by
      rw [checkAlert_of_success f a pd hf]
    rw [h1]
    have hf' : f ({ a with current_price := pd.price } : Alert).url = some pd := hf
    rw [checkAlert_of_success f _ pd hf']
    have hcond : ¬(pd.price ≤ ({ a with current_price := pd.price } : Alert).target_price ∧
        ({ a with current_price := pd.price } : Alert).current_price >
          ({ a with current_price := pd.price } : Alert).target_price) := by
      intro hc
      exact absurd hc.1 (not_le.mpr hc.2)
    rw [if_neg hcond]

theorem checkUserAlerts_stable (f : Fetcher) (l : List Alert) :
    stableList f (checkUserAlerts f l).1 := by
  induction l with
  | nil => rfl
  | cons a rest ih =>
    have ih' : checkUserAlerts f (checkUserAlerts f rest).1 =
        ((checkUserAlerts f rest).1, []) := ih
    show checkUserAlerts f ((checkAlert f a).1 :: (checkUserAlerts f rest).1) = _
    simp [checkUserAlerts, checkAlert_idem f a, ih']

theorem runUsers_all_stable (f : Fetcher) (o : SendOracle) :
    ∀ (us : List String) (st : Store),
      (∀ p ∈ st, p.1 ∈ us ∨ stableList f p.2) →
      ∀ p ∈ (runUsers f o us st).1, stableList f p.2 := by
  intro us
  induction us with
  | nil =>
    intro st h p hp
    rcases h p hp with hin | hs
    · exact absurd hin (List.not_mem_nil _)
    · exact hs
  | cons u rest ih =>
    intro st h p hp
    cases hl : lookupUser st u with
    | none =>
      rw [runUsers_cons_none f o u rest st hl] at hp
      refine ih st ?_ p hp
      intro q hq
      rcases h q hq with hin | hs
      · rcases List.mem_cons.mp hin with hqu | hqr
        · exact absurd hqu ((lookupUser_eq_none_iff st u).mp hl q hq)
        · exact Or.inl hqr
      · exact Or.inr hs
    | some alerts =>
      rw [runUsers_cons_some f o u rest st alerts hl] at hp
      have hstep : ∀ q ∈ setUser st u (checkUserAlerts f alerts).1,
          q.1 ∈ rest ∨ stableList f q.2 := by
        intro q hq
        rcases mem_setUser st u (checkUserAlerts f alerts).1 q hq with hv | ⟨hmem, hneq⟩
        · exact Or.inr (hv ▸ checkUserAlerts_stable f alerts)
        · rcases h q hmem with hin | hs
          · rcases List.mem_cons.mp hin with hqu | hqr
            · exact absurd hqu hneq
            · exact Or.inl hqr
          · exact Or.inr hs
      by_cases hemp : (checkUserAlerts f alerts).2.isEmpty
      · rw [if_pos hemp] at hp
        exact ih _ hstep p hp
      · rw [if_neg hemp] at hp
        exact ih _ hstep p hp

theorem runUsers_quiet (f : Fetcher) (o : SendOracle) :
    ∀ (us : List String) (st : Store), (∀ p ∈ st, stableList f p.2) →
      (runUsers f o us st).2.1 = false ∧ (runUsers f o us st).2.2 = [] := by
  intro us
  induction us with
  | nil => intro st _; exact ⟨rfl, rfl⟩
  | cons u rest ih =>
    intro st h
    cases hl : lookupUser st u with
    | none => rw [runUsers_cons_none f o u rest st hl]; exact ih st h
    | some alerts =>
      obtain ⟨p, hmem, hsnd⟩ := lookupUser_mem st u alerts hl
      have hstab : checkUserAlerts f alerts = (alerts, []) := by
        have hs := h p hmem
        rw [stableList, hsnd] at hs
        exact hs
      have hall : ∀ q ∈ setUser st u alerts, stableList f q.2 := by
        intro q hq
        rcases mem_setUser st u alerts q hq with hv | hv
        · exact hv ▸ hstab
        · exact h q hv.1
      rw [runUsers_cons_some f o u rest st alerts hl, hstab]
      simpa using ih (setUser st u alerts) hall

theorem runUsers_events_nil_of_not_found (f : Fetcher) (o : SendOracle)
    (us : List String) (st : Store) (h : (runUsers f o us st).2.1 = false) :
    (runUsers f o us st).2.2 = [] := by
  have hfe := runUsers_found_eq f o us st
  rw [h] at hfe
  cases hl : (runUsers f o us st).2.2 with
  | nil => rfl
  | cons a l => rw [hl] at hfe; simp at hfe

theorem isSave_eq_false_of_isSend (e : Event) (h : e.isSend = true) :
    e.isSave = false := by
  cases e with
  | send _ _ _ => rfl
  | save _ => exact absurd h (by simp [Event.isSend])

theorem check_all_prices_products (f : Fetcher) (o : SendOracle) (P : Store)
    (su : Option (List String)) :
    (check_all_prices f o P su).products =
      (runUsers f o (cycleUsers P su) P).1 := rfl

theorem check_all_prices_found (f : Fetcher) (o : SendOracle) (P : Store)
    (su : Option (List String)) :
    (check_all_prices f o P su).updates_found =
      (runUsers f o (cycleUsers P su) P).2.1 := rfl

theorem check_all_prices_events (f : Fetcher) (o : SendOracle) (P : Store)
    (su : Option (List String)) :
    (check_all_prices f o P su).events =
      (if (runUsers f o (cycleUsers P su) P).2.1 then
        (runUsers f o (cycleUsers P su) P).2.2 ++
          [Event.save (runUsers f o (cycleUsers P su) P).1]
       else (runUsers f o (cycleUsers P su) P).2.2) := rfl

/-! ## C2: ordering of notification dispatch and persistence -/

/-- C2 as stated is false: at a one-user, one-crossing input the cycle's
trace is a send event followed by the save event, so the dispatch
happened before (not after) persistence — a store failure at save time
could not have prevented it. -/
theorem C2_counterexample :
    ¬ persistBeforeNotify (check_all_prices exFetch (fun _ => true) exStore none) := by
  intro hp
  have := hp ⟨0, by decide⟩ ⟨1, by decide⟩ (by decide) (by decide)
  exact absurd this (by decide)

/-- C2 amended: within a cycle each user's notification message is
dispatched while the user loop runs, before any persistence; the single
save event, present iff a crossing was found, comes after all send
events, at the very end of the trace. -/
theorem C2_sends_precede_save (f : Fetcher) (o : SendOracle) (P : Store)
    (su : Option (List String)) :
    ∃ l, (∀ e ∈ l, Event.isSend e = true) ∧
      (check_all_prices f o P su).events =
        (if (check_all_prices f o P su).updates_found then
           l ++ [Event.save (check_all_prices f o P su).products]
         else l) :=
  ⟨(runUsers f o (cycleUsers P su) P).2.2,
   runUsers_events_send f o (cycleUsers P su) P, rfl⟩

/-! ## C3: a single save per cycle, at the end -/

/-- C3: in any cycle that found at least one crossing, exactly one save
occurs, it is the last event of the trace (after all alerts of all users
were processed and all sends attempted), and it writes the whole mutated
collection; `updates_found = true` coincides with at least one
notification send. -/
theorem C3_single_save (f : Fetcher) (o : SendOracle) (P : Store)
    (su : Option (List String))
    (h : (check_all_prices f o P su).updates_found = true) :
    (check_all_prices f o P su).events.countP Event.isSave = 1 ∧
    (check_all_prices f o P su).events.getLast? =
      some (Event.save (check_all_prices f o P su).products) ∧
    ∃ e ∈ (check_all_prices f o P su).events, e.isSend = true := by
  have hfound : (runUsers f o (cycleUsers P su) P).2.1 = true := h
  have hev : (check_all_prices f o P su).events =
      (runUsers f o (cycleUsers P su) P).2.2 ++
        [Event.save (runUsers f o (cycleUsers P su) P).1] := by
    rw [check_all_prices_events, if_pos hfound]
  have hsends := runUsers_events_send f o (cycleUsers P su) P
  refine ⟨?_, ?_, ?_⟩
  · rw [hev, List.countP_append]
    have h0 : (runUsers f o (cycleUsers P su) P).2.2.countP Event.isSave = 0 := by
      rw [List.countP_eq_zero]
      intro e he
      simp [isSave_eq_false_of_isSend e (hsends e he)]
    rw [h0]
    rfl
  · rw [hev, check_all_prices_products]
    simp
  · have hne : (runUsers f o (cycleUsers P su) P).2.2 ≠ [] := by
      intro hnil
      have hfe := runUsers_found_eq f o (cycleUsers P su) P
      rw [hfound, hnil] at hfe
      simp at hfe
    obtain ⟨e, hmem⟩ := List.exists_mem_of_ne_nil _ hne
    exact ⟨e, by rw [hev]; exact List.mem_append_left _ hmem, hsends e hmem⟩

/-- C3 at a concrete input: one user, one crossing, exactly one save. -/
theorem C3_single_save_witness :
    (check_all_prices exFetch (fun _ => true) exStore none).events.countP
      Event.isSave = 1 :=
  (C3_single_save exFetch (fun _ => true) exStore none (by decide)).1

/-! ## C9: notification-free cycles are never persisted -/

/-- C9: when a cycle produces no notification for any user, no save
occurs and the data file is left exactly as it was, even though (as the
closed conjunct shows at a concrete input with a price change that stays
above target) the in-memory collection did receive new prices — those
updates are discarded. -/
theorem C9_stale_prices (f : Fetcher) (o : SendOracle) (P : Store)
    (su : Option (List String))
    (h : (check_all_prices f o P su).updates_found = false) :
    (check_all_prices f o P su).events.countP Event.isSave = 0 ∧
    persistedAfter P (check_all_prices f o P su) = P ∧
    ((check_all_prices staleFetch (fun _ => true) exStore none).updates_found
        = false ∧
     (check_all_prices staleFetch (fun _ => true) exStore none).products
        ≠ exStore) := by
  have hfound : (runUsers f o (cycleUsers P su) P).2.1 = false := h
  have hev : (check_all_prices f o P su).events =
      (runUsers f o (cycleUsers P su) P).2.2 := by
    rw [check_all_prices_events, if_neg]
    simp [hfound]
  refine ⟨?_, ?_, by decide, by decide⟩
  · rw [hev, List.countP_eq_zero]
    intro e he
    simp [isSave_eq_false_of_isSend e
      (runUsers_events_send f o (cycleUsers P su) P e he)]
  · simp [persistedAfter, h]

/-- C9 at a concrete input: a successful fetch that stays above target
changes the in-memory price but the persisted file is untouched. -/
theorem C9_stale_prices_witness :
    persistedAfter exStore
      (check_all_prices staleFetch (fun _ => true) exStore none) = exStore :=
  (C9_stale_prices staleFetch (fun _ => true) exStore none (by decide)).2.1

/-! ## C10: delivery failures change nothing else; no re-notification -/

/-- C10: the cycle's mutated collection, its `updates_found` flag and the
sequence of attempted sends and the save are all independent of which
deliveries fail (a failed send for one user stops neither later users'
sends nor the end-of-cycle save, and the crossing's price update is
persisted anyway); moreover a second cycle run on the persisted outcome
with unchanged fetch results finds nothing to notify — the undelivered
crossing is never re-detected. -/
theorem C10_delivery_failure_isolated (f : Fetcher) (o1 o2 : SendOracle)
    (P : Store) (su : Option (List String)) :
    ((check_all_prices f o1 P su).products =
        (check_all_prices f o2 P su).products ∧
     (check_all_prices f o1 P su).updates_found =
        (check_all_prices f o2 P su).updates_found ∧
     (check_all_prices f o1 P su).events.map Event.attempt =
        (check_all_prices f o2 P su).events.map Event.attempt) ∧
    ((check_all_prices f o2
        (persistedAfter P (check_all_prices f o1 P none)) none).updates_found
          = false ∧
     (check_all_prices f o2
        (persistedAfter P (check_all_prices f o1 P none)) none).events = []) := by
  obtain ⟨hst, hfd, hmap⟩ := runUsers_oracle f o1 o2 (cycleUsers P su) P
  constructor
  · refine ⟨hst, hfd, ?_⟩
    rw [check_all_prices_events, check_all_prices_events, hfd]
    by_cases hb : (runUsers f o2 (cycleUsers P su) P).2.1
    · rw [if_pos hb, if_pos hb]
      simp only [List.map_append, hmap, hst]
    · rw [if_neg hb, if_neg hb]
      exact hmap
  · by_cases hf1 : (check_all_prices f o1 P none).updates_found
    · have hS2eq : persistedAfter P (check_all_prices f o1 P none) =
          (runUsers f o1 (cycleUsers P none) P).1 := by
        rw [persistedAfter, if_pos hf1, check_all_prices_products]
      have hstable : ∀ p ∈ persistedAfter P (check_all_prices f o1 P none),
          stableList f p.2 := by
        rw [hS2eq]
        refine runUsers_all_stable f o1 (cycleUsers P none) P ?_
        intro p hp
        exact Or.inl (List.mem_map_of_mem Prod.fst hp)
      have hq := runUsers_quiet f o2
        (cycleUsers (persistedAfter P (check_all_prices f o1 P none)) none)
        (persistedAfter P (check_all_prices f o1 P none)) hstable
      refine ⟨hq.1, ?_⟩
      rw [check_all_prices_events, if_neg]
      · exact hq.2
      · simp [hq.1]
    · have hf1' : (check_all_prices f o1 P none).updates_found = false := by
        simpa using hf1
      have hS2eq : persistedAfter P (check_all_prices f o1 P none) = P := by
        rw [persistedAfter, if_neg]
        simp [hf1']
      rw [hS2eq]
      obtain ⟨_, hfd2, _⟩ := runUsers_oracle f o1 o2 (cycleUsers P none) P
      have hff : (runUsers f o2 (cycleUsers P none) P).2.1 = false := by
        rw [← hfd2]
        exact hf1'
      refine ⟨hff, ?_⟩
      rw [check_all_prices_events, if_neg]
      · exact runUsers_events_nil_of_not_found f o2 (cycleUsers P none) P hff
      · simp [hff]

/-! ## Helper lemmas for `remove_product` and `add_product` -/

theorem removeFirstAlert_eq_none (aid : String) :
    ∀ (alerts : List Alert), (∀ a ∈ alerts, a.id ≠ aid) →
      removeFirstAlert alerts aid = none := by
  intro alerts
  induction alerts with
  | nil => intro _; rfl
  | cons a rest ih =>
    intro h
    have ha : a.id ≠ aid := h a (List.mem_cons_self a rest)
    simp only [removeFirstAlert]
    rw [if_neg (by simpa using ha),
        ih (fun b hb => h b (List.mem_cons_of_mem a hb))]

theorem removeFirstAlert_eq_some (aid : String) :
    ∀ (alerts : List Alert) (a : Alert), a ∈ alerts → a.id = aid →
      ∃ l1 b l2, alerts = l1 ++ b :: l2 ∧ b.id = aid ∧
        (∀ c ∈ l1, c.id ≠ aid) ∧
        removeFirstAlert alerts aid = some (l1 ++ l2, b) := by
  intro alerts
  induction alerts with
  | nil => intro a ha; exact absurd ha (List.not_mem_nil a)
  | cons x rest ih =>
    intro a ha haid
    by_cases hx : x.id = aid
    · refine ⟨[], x, rest, rfl, hx, by simp, ?_⟩
      simp only [removeFirstAlert]
      rw [if_pos (by simpa using hx)]
      rfl
    · have ha' : a ∈ rest := by
        rcases List.mem_cons.mp ha with h1 | h1
        · exact absurd (h1 ▸ haid) hx
        · exact h1
      obtain ⟨l1, b, l2, heq, hbid, hl1, hrem⟩ := ih a ha' haid
      refine ⟨x :: l1, b, l2, by rw [heq]; rfl, hbid, ?_, ?_⟩
      · intro c hc
        rcases List.mem_cons.mp hc with h1 | h1
        · exact h1 ▸ hx
        · exact hl1 c h1
      · simp only [removeFirstAlert]
        rw [if_neg (by simpa using hx), hrem]
        rfl

theorem lookupUser_append_of_none (u : String) :
    ∀ (s t : Store), lookupUser s u = none →
      lookupUser (s ++ t) u = lookupUser t u := by
  intro s t
  induction s with
  | nil => intro _; rfl
  | cons p rest ih =>
    intro h
    cases hk : (p.1 == u) with
    | true => simp [lookupUser, List.find?, hk] at h
    | false =>
      simp only [lookupUser, List.cons_append, List.find?, hk] at h ⊢
      exact ih h

theorem lookupUser_ensureUser (products : Store) (uid : String) :
    lookupUser (ensureUser products uid) uid =
      some ((lookupUser products uid).getD []) := by
  unfold ensureUser
  cases hn : lookupUser products uid with
  | some lst =>
    simpa using hn
  | none =>
    have happ : lookupUser (products ++ [(uid, [])]) uid = some [] := by
      rw [lookupUser_append_of_none uid products [(uid, [])] hn]
      simp [lookupUser, List.find?]
    simpa using happ

theorem lookupUser_setUser (u : String) (l : List Alert) :
    ∀ (s : Store), (lookupUser s u).isSome = true →
      lookupUser (setUser s u l) u = some l := by
  intro s
  induction s with
  | nil => intro h; simp [lookupUser] at h
  | cons p rest ih =>
    intro h
    have hmap : setUser (p :: rest) u l =
        (if (p.1 == u) = true then (p.1, l) else p) :: setUser rest u l := rfl
    cases hk : (p.1 == u) with
    | true =>
      rw [hmap, if_pos hk]
      simp only [lookupUser, List.find?, hk]
      rfl
    | false =>
      rw [hmap, if_neg (by simp [hk])]
      have h' : (lookupUser rest u).isSome = true := by
        simpa only [lookupUser, List.find?, hk] using h
      simpa only [lookupUser, List.find?, hk] using ih h'

/-! ## C6: remove deletes the first matching alert, else saves nothing -/

/-- C6: with the caller's alert list loaded, `remove_product` on an id
that occurs deletes exactly the first matching alert, saves the updated
collection and reports the removal; on an id that occurs nowhere it
reports failure (`notFound`, or the `noAlerts` message when the list is
empty) and performs no save, leaving the stored collection untouched. -/
theorem C6_remove_first_match (file : Store) (uid aid : String)
    (alerts : List Alert) (hl : lookupUser file uid = some alerts) :
    ((∃ a ∈ alerts, a.id = aid) →
      ∃ l1 b l2, alerts = l1 ++ b :: l2 ∧ b.id = aid ∧
        (∀ c ∈ l1, c.id ≠ aid) ∧
        remove_product file uid [aid] =
          (setUser file uid (l1 ++ l2), true, RemoveReply.removed b.name)) ∧
    ((∀ a ∈ alerts, a.id ≠ aid) →
      remove_product file uid [aid] =
        (file, false,
         if alerts.isEmpty then RemoveReply.noAlerts
         else RemoveReply.notFound aid)) := by
  cases alerts with
  | nil =>
    constructor
    · rintro ⟨a, ha, -⟩
      exact absurd ha (List.not_mem_nil a)
    · intro _
      simp only [remove_product, hl, List.isEmpty_nil, if_pos]
  | cons x rest =>
    constructor
    · rintro ⟨a, ha, haid⟩
      obtain ⟨l1, b, l2, heq, hbid, hl1, hrem⟩ :=
        removeFirstAlert_eq_some aid (x :: rest) a ha haid
      refine ⟨l1, b, l2, heq, hbid, hl1, ?_⟩
      simp only [remove_product, hl, hrem]
    · intro h
      have hrem := removeFirstAlert_eq_none aid (x :: rest) h
      simp only [remove_product, hl, hrem, List.isEmpty_cons, if_neg]
      rfl

/-- C6 at a concrete input: removing a nonexistent id from `exStore`
saves nothing and leaves the file unchanged. -/
theorem C6_remove_first_match_witness :
    remove_product exStore "7" ["Y"] =
      (exStore, false, RemoveReply.notFound "Y") :=
  (C6_remove_first_match exStore "7" "Y" [exAlert] rfl).2 (by decide)

/-! ## C7: the fetcher returns a whole snapshot or a failure -/

/-- C7: if both name selectors miss or the price element misses, the
fetch returns a failure, never a partial snapshot; any returned snapshot
carries a price parsed from the price element's text with every
non-digit character (currency symbol, separators) stripped, and such a
text had at least one digit. -/
theorem C7_fetch_all_or_nothing (url : String) (pg : Page) :
    (((pg.nameElemA = none ∧ pg.nameElemB = none) ∨ pg.priceElem = none) →
      get_product_details url (some pg) = none) ∧
    (∀ pd, get_product_details url (some pg) = some pd →
      ∃ t, pg.priceElem = some t ∧
        (t.trim.toList.filter Char.isDigit) ≠ [] ∧
        pd.price = digitsToInt (t.trim.toList.filter Char.isDigit)) := by
  constructor
  · rintro (⟨h1, h2⟩ | h)
    · cases hpe : pg.priceElem <;>
        simp [get_product_details, h1, h2, hpe, Option.orElse]
    · cases hna : pg.nameElemA <;>
        cases hnb : pg.nameElemB <;>
          simp [get_product_details, h, hna, hnb, Option.orElse]
  · intro pd hpd
    cases hpe : pg.priceElem with
    | none =>
      cases hna : pg.nameElemA <;>
        cases hnb : pg.nameElemB <;>
          simp [get_product_details, hpe, hna, hnb, Option.orElse] at hpd
    | some t =>
      refine ⟨t, rfl, ?_⟩
      cases hna : pg.nameElemA with
      | none =>
        cases hnb : pg.nameElemB with
        | none =>
          simp [get_product_details, hpe, hna, hnb, Option.orElse] at hpd
        | some n =>
          simp only [get_product_details, hpe, hna, hnb, Option.orElse] at hpd
          unfold parseCleanPrice at hpd
          by_cases hds : (t.trim.toList.filter Char.isDigit).isEmpty
          · rw [if_pos hds] at hpd
            simp at hpd
          · rw [if_neg hds] at hpd
            simp only [Option.some.injEq] at hpd
            refine ⟨by simpa using hds, ?_⟩
            rw [← hpd]
      | some n =>
        simp only [get_product_details, hpe, hna, Option.orElse] at hpd
        unfold parseCleanPrice at hpd
        by_cases hds : (t.trim.toList.filter Char.isDigit).isEmpty
        · rw [if_pos hds] at hpd
          simp at hpd
        · rw [if_neg hds] at hpd
          simp only [Option.some.injEq] at hpd
          refine ⟨by simpa using hds, ?_⟩
          rw [← hpd]

/-- C7 at a concrete input: a page with no name element fetches to a
failure. -/
theorem C7_fetch_all_or_nothing_witness :
    get_product_details "u" (some badPage) = none :=
  (C7_fetch_all_or_nothing "u" badPage).1 (Or.inl ⟨rfl, rfl⟩)

/-! ## C8: id derivation holds, uniqueness does not -/

/-- C8 as stated is false in its uniqueness part: adding the same
product url (pid `Q`) twice for user `7` yields an alert list whose ids
are `Q, Q` — `add_product` never checks for an existing id. -/
theorem C8_counterexample :
    ¬ List.Nodup (((lookupUser dupStore "7").getD []).map Alert.id) := by
  decide

/-- C8 amended: each alert appended by the add operation carries the id
extracted from the url's `pid` query parameter when present, else the
user's list length at insertion time rendered as a string; but ids are
not guaranteed unique within a user's list. -/
theorem C8_id_assignment (products : Store) (uid url : String) (tp : Int)
    (pd : ProductDetails) (now : Nat) :
    lookupUser (add_product products uid url tp pd now) uid =
      some ((lookupUser products uid).getD [] ++
        [{ id := (extract_product_id url).getD
              (toString ((lookupUser products uid).getD []).length),
           name := pd.name, url := url, current_price := pd.price,
           target_price := tp, added_on := now }]) := by
  have he := lookupUser_ensureUser products uid
  have hsome : (lookupUser (ensureUser products uid) uid).isSome = true := by
    rw [he]; rfl
  unfold add_product
  rw [lookupUser_setUser uid _ (ensureUser products uid) hsome, he]
  simp

end FlipkartBot
